import Mathlib

/-!
Shallow embedding of the authentication backend (`auth.py`, `models.py`) of the
group5 capstone repository, and proofs of the specification claims about it.

Each FastAPI endpoint of `auth.py` is translated to a pure Lean function that
takes the database state (and, where relevant, the cookie-session state and the
values produced by external effects: the bcrypt salt, the random draw, the
fresh primary keys, the current time) and returns the HTTP outcome together
with the post-state.  An `HTTPException` raised by the endpoint is an
`Except.error`; since SQLAlchemy commits only at `db.commit()`, an error path
leaves the state unchanged.
-/

namespace Auth

/-- Modelled from the spec: the `bcrypt` library is not part of this
repository; the spec gives its contract — `hash(plaintext)` produces a salted
digest that is a deterministic injective function of the fresh per-call salt
and the plaintext, and `verify` recomputes the digest from the stored salt.
We model a bcrypt hash string by its two information-carrying components. -/
structure BcryptHash where
  salt : Nat
  digestOf : String
deriving DecidableEq

/-- Modelled from the spec: `bcrypt.hashpw(password, gensalt())`; the fresh
salt produced by `gensalt()` is passed explicitly. -/
def bcrypt_hashpw (password : String) (salt : Nat) : BcryptHash :=
  ⟨salt, password⟩

/-- Modelled from the spec: `bcrypt.checkpw(password, stored)` re-derives the
digest with the stored salt and compares. -/
def bcrypt_checkpw (password : String) (stored : BcryptHash) : Bool :=
  stored.digestOf == password

/-- A row of the `users` table (`models.py`, class `User`).  `user_id` is the
string form of the UUID primary key. -/
structure Account where
  user_id : String
  email : String
  password : BcryptHash
  last_login : Option Nat
deriving DecidableEq

/-- A row of the `password_reset_codes` table (`models.py`,
class `PasswordResetCode`). -/
structure PasswordResetCode where
  code_id : Nat
  email : String
  code : String
  expires_at : Nat
  created_at : Nat
deriving DecidableEq

/-- The database state. -/
structure Db where
  users : List Account
  resetCodes : List PasswordResetCode
deriving DecidableEq

/-- The Starlette cookie session: `request.session` with keys
"user_id" and "email". -/
structure SessionState where
  user_id : Option String
  email : Option String
deriving DecidableEq

/-- The data of `fastapi.HTTPException(status_code, detail)`. -/
structure HTTPError where
  status : Nat
  detail : String
deriving DecidableEq

instance {ε α : Type} [DecidableEq ε] [DecidableEq α] :
    DecidableEq (Except ε α) := fun x y =>
  match x, y with
  | .error a, .error b =>
    if h : a = b then .isTrue (congrArg Except.error h)
    else .isFalse (fun hc => h (Except.error.inj hc))
  | .error _, .ok _ => .isFalse (fun hc => Except.noConfusion hc)
  | .ok _, .error _ => .isFalse (fun hc => Except.noConfusion hc)
  | .ok a, .ok b =>
    if h : a = b then .isTrue (congrArg Except.ok h)
    else .isFalse (fun hc => h (Except.ok.inj hc))

def emailTaken : HTTPError := ⟨400, "이미 존재하는 이메일입니다."⟩

def weakPassword : HTTPError := ⟨400, "비밀번호는 8자 이상이어야 합니다."⟩

def invalidCredentials : HTTPError := ⟨401, "이메일 또는 비밀번호가 올바르지 않습니다."⟩

def loginRequired : HTTPError := ⟨401, "로그인이 필요합니다."⟩

def invalidUser : HTTPError := ⟨401, "유효하지 않은 사용자"⟩

def emailNotRegistered : HTTPError := ⟨404, "등록되지 않은 이메일입니다."⟩

def userNotFound : HTTPError := ⟨404, "사용자를 찾을 수 없습니다."⟩

/-- Outcome when `session.delete(None)` raises `UnmappedInstanceError`;
FastAPI turns the unhandled exception into a 500 response and the transaction
is never committed. -/
def internalServerError : HTTPError := ⟨500, "Internal Server Error"⟩

/-- The query `db.query(User).filter(User.email == email).first()`. -/
def find_by_email (email : String) (users : List Account) : Option Account :=
  users.find? (fun u => u.email == email)

/-- The query `db.query(User).filter(User.user_id == user_id).first()`. -/
def find_by_user_id (uid : String) (users : List Account) : Option Account :=
  users.find? (fun u => u.user_id == uid)

/-- Endpoint `POST /auth/register` (`auth.py`, `register`).  `newUserId` is the fresh
UUID produced by the column default, `salt` the fresh bcrypt salt.  On success
the payload carries `user.user_id`. -/
def register (email password : String) (salt : Nat) (newUserId : String)
    (db : Db) : Except HTTPError String × Db :=
  match find_by_email email db.users with
  | some _ => (.error emailTaken, db)
  | none =>
    if password.length < 8 then (.error weakPassword, db)
    else
      let hashed := bcrypt_hashpw password salt
      let user : Account := ⟨newUserId, email, hashed, none⟩
      (.ok newUserId, { db with users := db.users ++ [user] })

/-- Endpoint `POST /auth/login` (`auth.py`, `login`).  `now` is `datetime.utcnow()`.
On success the session is bound to the user and `last_login` is updated. -/
def login (email password : String) (now : Nat) (db : Db)
    (sess : SessionState) : Except HTTPError Unit × Db × SessionState :=
  match find_by_email email db.users with
  | none => (.error invalidCredentials, db, sess)
  | some user =>
    if ¬ bcrypt_checkpw password user.password then
      (.error invalidCredentials, db, sess)
    else
      let sess' : SessionState := ⟨some user.user_id, some user.email⟩
      let db' : Db := { db with
        users := db.users.map (fun u =>
          if u.user_id == user.user_id then { u with last_login := some now }
          else u) }
      (.ok (), db', sess')

/-- Endpoint `GET /auth/me` (`auth.py`, `me`).  Python's `if not user_id` is true for a
missing key and for the empty string; when the bound id resolves to no user
the session is cleared before the 401 is raised. -/
def me (db : Db) (sess : SessionState) :
    Except HTTPError Account × SessionState :=
  match sess.user_id with
  | none => (.error loginRequired, sess)
  | some uid =>
    if uid == "" then (.error loginRequired, sess)
    else
      match find_by_user_id uid db.users with
      | none => (.error invalidUser, ⟨none, none⟩)
      | some user => (.ok user, sess)

/-- The contract of `random.randint(100000, 999999)` (`auth.py`, line 169):
the draw is an integer of this inclusive range. -/
def randintDraw (n : Nat) : Prop :=
  100000 ≤ n ∧ n ≤ 999999

instance (n : Nat) : Decidable (randintDraw n) := by
  unfold randintDraw; infer_instance

/-- Python's `str` on a non-negative integer: decimal representation with no
padding, exactly `Nat.repr`. -/
def pyStr (n : Nat) : String :=
  Nat.repr n

/-- Endpoint `POST /auth/password-reset/request` (`auth.py`, `password_reset_request`).
`draw` is the result of `random.randint(100000, 999999)`, `newCodeId` the
fresh primary key, `now` the issuance time (seconds). -/
def password_reset_request (email : String) (draw : Nat) (newCodeId : Nat)
    (now : Nat) (db : Db) : Except HTTPError Unit × Db :=
  match find_by_email email db.users with
  | none => (.error emailNotRegistered, db)
  | some _ =>
    let code := pyStr draw
    let expires := now + 5 * 60
    let entry : PasswordResetCode := ⟨newCodeId, email, code, expires, now⟩
    (.ok (), { db with resetCodes := db.resetCodes ++ [entry] })

/-- The later of two reset-code rows by `created_at`; the left row wins ties,
making `.order_by(created_at.desc()).first()` deterministic in the model. -/
def laterOf (a b : PasswordResetCode) : PasswordResetCode :=
  if a.created_at < b.created_at then b else a

/-- The selection `.order_by(PasswordResetCode.created_at.desc()).first()` on a result
list. -/
def latestRecord : List PasswordResetCode → Option PasswordResetCode
  | [] => none
  | r :: rs => some (rs.foldl laterOf r)

/-- The query of `password_reset_verify_code`: latest row matching both the
email and the code string. -/
def latestMatch (email code : String) (rcs : List PasswordResetCode) :
    Option PasswordResetCode :=
  latestRecord (rcs.filter (fun r => r.email == email && r.code == code))

/-- The query of `password_reset_confirm`: latest row for the email alone. -/
def latestFor (email : String) (rcs : List PasswordResetCode) :
    Option PasswordResetCode :=
  latestRecord (rcs.filter (fun r => r.email == email))

def invalidCode : HTTPError := ⟨400, "잘못된 인증코드입니다."⟩

def codeExpired : HTTPError := ⟨400, "인증코드가 만료되었습니다."⟩

/-- Endpoint `POST /auth/password-reset/verify-code` (`auth.py`,
`password_reset_verify_code`).  `now` is `datetime.now(timezone.utc)`. -/
def password_reset_verify_code (email code : String) (now : Nat) (db : Db) :
    Except HTTPError Unit × Db :=
  match latestMatch email code db.resetCodes with
  | none => (.error invalidCode, db)
  | some record =>
    if record.expires_at < now then
      (.error codeExpired, db)
    else
      (.ok (), db)

/-- Endpoint `POST /auth/password-reset/confirm` (`auth.py`, `password_reset_confirm`).
The latest reset row for the email is fetched first; after the user and
password-length checks, `db.delete(record)` either removes that row or, when
the query returned `None`, raises `UnmappedInstanceError` — the request then
fails with an unhandled-exception 500 and nothing is committed. -/
def password_reset_confirm (email new_password : String) (salt : Nat)
    (db : Db) : Except HTTPError Unit × Db :=
  let record? := latestFor email db.resetCodes
  match find_by_email email db.users with
  | none => (.error userNotFound, db)
  | some user =>
    if new_password.length < 8 then (.error weakPassword, db)
    else
      match record? with
      | none => (.error internalServerError, db)
      | some record =>
        let hashed := bcrypt_hashpw new_password salt
        let db' : Db := { db with
          users := db.users.map (fun u =>
            if u.user_id == user.user_id then { u with password := hashed }
            else u),
          resetCodes := db.resetCodes.filter
            (fun r => r.code_id != record.code_id) }
        (.ok (), db')

/-! Helper lemmas -/

lemma login_eq_of_find_none {email password : String} {now : Nat} {db : Db}
    {sess : SessionState} (h : find_by_email email db.users = none) :
    login email password now db sess = (.error invalidCredentials, db, sess) := by
  simp [login, h]

lemma login_eq_of_checkpw_false {email password : String} {now : Nat}
    {db : Db} {sess : SessionState} {u : Account}
    (h : find_by_email email db.users = some u)
    (hc : bcrypt_checkpw password u.password = false) :
    login email password now db sess = (.error invalidCredentials, db, sess) := by
  simp [login, h, hc]

lemma login_eq_of_checkpw_true {email password : String} {now : Nat}
    {db : Db} {sess : SessionState} {u : Account}
    (h : find_by_email email db.users = some u)
    (hc : bcrypt_checkpw password u.password = true) :
    login email password now db sess =
      (.ok (), { db with users := db.users.map (fun v =>
          if v.user_id == u.user_id then { v with last_login := some now }
          else v) },
        ⟨some u.user_id, some u.email⟩) := by
  simp [login, h, hc]

/-! Claims -/

/-- C3: if login fails because no account has the email, or because the stored
hash does not verify against the supplied password, the two failure cases
produce the identical observable outcome — the same `invalidCredentials`
status and message — with no distinguishing signal. -/
theorem C3_login_indistinguishable (email password : String) (now : Nat)
    (db : Db) (sess : SessionState) :
    (find_by_email email db.users = none →
      login email password now db sess = (.error invalidCredentials, db, sess))
    ∧ (∀ u, find_by_email email db.users = some u →
        bcrypt_checkpw password u.password = false →
        login email password now db sess =
          (.error invalidCredentials, db, sess)) := by
  exact ⟨fun h => login_eq_of_find_none h,
    fun u h hc => login_eq_of_checkpw_false h hc⟩

def uC3 : Account := ⟨"u1", "a@b.c", bcrypt_hashpw "rightpass" 3, none⟩

def dbC3 : Db := ⟨[uC3], []⟩

theorem C3_login_indistinguishable_witness :
    login "x@y.z" "pw" 0 ⟨[], []⟩ ⟨none, none⟩ =
      (.error invalidCredentials, ⟨[], []⟩, ⟨none, none⟩)
    ∧ login "a@b.c" "wrongpass" 0 dbC3 ⟨none, none⟩ =
      (.error invalidCredentials, dbC3, ⟨none, none⟩) :=
  ⟨(C3_login_indistinguishable "x@y.z" "pw" 0 ⟨[], []⟩ ⟨none, none⟩).1
     (by decide),
   (C3_login_indistinguishable "a@b.c" "wrongpass" 0 dbC3 ⟨none, none⟩).2 uC3
     (by decide) (by decide)⟩

/-- C5: for an email already bound to an account, `register` fails with
`emailTaken` for every password — including short ones, since the
duplicate-email check precedes the weak-password check; a first register with
a fresh email and a password of length at least 8 succeeds and returns the new
account id. -/
theorem C5_register (email password : String) (salt : Nat)
    (newUserId : String) (db : Db) :
    ((∃ u, u ∈ db.users ∧ u.email = email) →
      register email password salt newUserId db = (.error emailTaken, db))
    ∧ (find_by_email email db.users = none → 8 ≤ password.length →
      register email password salt newUserId db =
        (.ok newUserId, { db with users :=
          db.users ++ [⟨newUserId, email, bcrypt_hashpw password salt, none⟩] })) := by
  constructor
  · rintro ⟨u, hu, he⟩
    have hs : (find_by_email email db.users).isSome := by
      unfold find_by_email
      rw [List.find?_isSome]
      exact ⟨u, hu, by simp [he]⟩
    obtain ⟨v, hv⟩ := Option.isSome_iff_exists.mp hs
    simp [register, hv]
  · intro h hl
    have hnl : ¬ password.length < 8 := by omega
    simp [register, h, hnl]

theorem C5_register_witness :
    register "a@b.c" "x" 5 "u2" dbC3 = (.error emailTaken, dbC3)
    ∧ register "new@b.c" "longenough" 5 "u2" dbC3 =
      (.ok "u2", ⟨[uC3, ⟨"u2", "new@b.c", bcrypt_hashpw "longenough" 5, none⟩],
        []⟩) :=
  ⟨(C5_register "a@b.c" "x" 5 "u2" dbC3).1 ⟨uC3, by decide, by decide⟩,
   (C5_register "new@b.c" "longenough" 5 "u2" dbC3).2 (by decide) (by decide)⟩

/-- C8: hashing round-trips with verification — `verify(p, hash(p))` holds for
every non-empty plaintext, `verify(p, hash(p2))` fails for `p2 ≠ p`, and two
calls with distinct fresh salts yield different hash values that both verify
against the plaintext. -/
theorem C8_hash_verify (p p2 : String) (s1 s2 : Nat)
    (hp : p ≠ "") (hne : p ≠ p2) (hs : s1 ≠ s2) :
    bcrypt_checkpw p (bcrypt_hashpw p s1) = true
    ∧ bcrypt_checkpw p (bcrypt_hashpw p2 s1) = false
    ∧ bcrypt_hashpw p s1 ≠ bcrypt_hashpw p s2
    ∧ bcrypt_checkpw p (bcrypt_hashpw p s2) = true := by
  refine ⟨by simp [bcrypt_checkpw, bcrypt_hashpw], ?_, ?_,
    by simp [bcrypt_checkpw, bcrypt_hashpw]⟩
  · simp only [bcrypt_checkpw, bcrypt_hashpw, beq_eq_false_iff_ne, ne_eq]
    exact fun h => hne h.symm
  · simp only [bcrypt_hashpw, ne_eq, BcryptHash.mk.injEq, not_and]
    exact fun h => absurd h hs

theorem C8_hash_verify_witness :
    bcrypt_checkpw "secretpw" (bcrypt_hashpw "secretpw" 1) = true
    ∧ bcrypt_checkpw "secretpw" (bcrypt_hashpw "otherpw" 1) = false
    ∧ bcrypt_hashpw "secretpw" 1 ≠ bcrypt_hashpw "secretpw" 2
    ∧ bcrypt_checkpw "secretpw" (bcrypt_hashpw "secretpw" 2) = true :=
  C8_hash_verify "secretpw" "otherpw" 1 2 (by decide) (by decide) (by decide)

/-- C9: every failing login leaves all state unchanged — the database
(including `last_login`) and the session are exactly as before the call. -/
theorem C9_login_failure_frame (email password : String) (now : Nat)
    (db : Db) (sess : SessionState) (e : HTTPError) (db' : Db)
    (sess' : SessionState)
    (h : login email password now db sess = (.error e, db', sess')) :
    db' = db ∧ sess' = sess := by
  cases hfind : find_by_email email db.users with
  | none =>
    rw [login_eq_of_find_none hfind] at h
    simp only [Prod.mk.injEq, Except.error.injEq] at h
    exact ⟨h.2.1.symm, h.2.2.symm⟩
  | some user =>
    cases hc : bcrypt_checkpw password user.password with
    | false =>
      rw [login_eq_of_checkpw_false hfind hc] at h
      simp only [Prod.mk.injEq, Except.error.injEq] at h
      exact ⟨h.2.1.symm, h.2.2.symm⟩
    | true =>
      rw [login_eq_of_checkpw_true hfind hc] at h
      exact absurd h (by simp)

theorem C9_login_failure_frame_witness :
    dbC3 = dbC3 ∧ (⟨none, none⟩ : SessionState) = ⟨none, none⟩ :=
  C9_login_failure_frame "a@b.c" "wrongpass" 0 dbC3 ⟨none, none⟩
    invalidCredentials dbC3 ⟨none, none⟩ (by decide)

lemma verify_eq_of_match_none {email code : String} {now : Nat} {db : Db}
    (h : latestMatch email code db.resetCodes = none) :
    password_reset_verify_code email code now db = (.error invalidCode, db) := by
  simp [password_reset_verify_code, h]

lemma verify_eq_of_expired {email code : String} {now : Nat} {db : Db}
    {r : PasswordResetCode}
    (h : latestMatch email code db.resetCodes = some r)
    (hexp : r.expires_at < now) :
    password_reset_verify_code email code now db = (.error codeExpired, db) := by
  simp [password_reset_verify_code, h, hexp]

lemma verify_eq_of_valid {email code : String} {now : Nat} {db : Db}
    {r : PasswordResetCode}
    (h : latestMatch email code db.resetCodes = some r)
    (hexp : ¬ r.expires_at < now) :
    password_reset_verify_code email code now db = (.ok (), db) := by
  simp [password_reset_verify_code, h, hexp]

/-- C6: a successful verify-code call has no side effect on any stored state —
the database (reset codes and accounts alike) is returned unchanged, and the
same code verifies again with the same outcome afterwards. -/
theorem C6_verify_no_side_effect (email code : String) (now : Nat)
    (db db' : Db)
    (h : password_reset_verify_code email code now db = (.ok (), db')) :
    db' = db ∧ password_reset_verify_code email code now db' = (.ok (), db') := by
  cases hm : latestMatch email code db.resetCodes with
  | none =>
    rw [verify_eq_of_match_none hm] at h
    exact absurd h (by simp)
  | some r =>
    by_cases hexp : r.expires_at < now
    · rw [verify_eq_of_expired hm hexp] at h
      exact absurd h (by simp)
    · rw [verify_eq_of_valid hm hexp] at h
      simp only [Prod.mk.injEq] at h
      have hdb : db' = db := h.2.symm
      subst hdb
      exact ⟨rfl, verify_eq_of_valid hm hexp⟩

def rC6 : PasswordResetCode := ⟨1, "c6@b.c", "654321", 500, 1⟩

def dbC6 : Db := ⟨[], [rC6]⟩

theorem C6_verify_no_side_effect_witness :
    dbC6 = dbC6
    ∧ password_reset_verify_code "c6@b.c" "654321" 100 dbC6 = (.ok (), dbC6) :=
  C6_verify_no_side_effect "c6@b.c" "654321" 100 dbC6 dbC6 (by decide)

/-- C7: when the session is bound to an account id that no longer resolves to
an account, `me` fails with the stale-user 401 and clears the session as a
side effect, so a subsequent call on the returned session fails with the
no-session 401. -/
theorem C7_me_stale_session (db : Db) (sess : SessionState) (uid : String)
    (hbound : sess.user_id = some uid) (hne : uid ≠ "")
    (hnouser : find_by_user_id uid db.users = none) :
    me db sess = (.error invalidUser, ⟨none, none⟩)
    ∧ me db ⟨none, none⟩ = (.error loginRequired, ⟨none, none⟩) := by
  constructor
  · simp [me, hbound, hne, hnouser]
  · rfl

theorem C7_me_stale_session_witness :
    me ⟨[], []⟩ ⟨some "ghost", some "g@h.i"⟩ = (.error invalidUser, ⟨none, none⟩)
    ∧ me ⟨[], []⟩ ⟨none, none⟩ = (.error loginRequired, ⟨none, none⟩) :=
  C7_me_stale_session ⟨[], []⟩ ⟨some "ghost", some "g@h.i"⟩ "ghost"
    (by decide) (by decide) (by decide)

def rExpiredC4 : PasswordResetCode := ⟨1, "a@b.c", "123456", 100, 1⟩

def rFreshC4 : PasswordResetCode := ⟨2, "a@b.c", "123456", 1000, 2⟩

def dbC4 : Db := ⟨[], [rExpiredC4, rFreshC4]⟩

/-- C4 counterexample: `rExpiredC4` is a stored reset code whose expiry (100)
is in the past at call time (200) and whose email and code match the call,
yet `password_reset_verify_code` reports success — the query selects the
newer record `rFreshC4` carrying the same code string.  So the claim as
stated (quantifying over every expired record) fails. -/
theorem C4_counterexample :
    rExpiredC4 ∈ dbC4.resetCodes ∧ rExpiredC4.email = "a@b.c"
    ∧ rExpiredC4.code = "123456" ∧ rExpiredC4.expires_at < 200
    ∧ password_reset_verify_code "a@b.c" "123456" 200 dbC4 =
        (.ok (), dbC4) := by
  refine ⟨by decide, by decide, by decide, by decide, by decide⟩

/-- C4 (amended): when the record selected by the verify-code query — the
most recent record matching both email and code — has its expiry in the past,
the call fails with `codeExpired`; when no record matches, it fails with the
distinct `invalidCode` error. -/
theorem C4_verify_expired (email code : String) (now : Nat) (db : Db) :
    (∀ r, latestMatch email code db.resetCodes = some r →
      r.expires_at < now →
      password_reset_verify_code email code now db = (.error codeExpired, db))
    ∧ (latestMatch email code db.resetCodes = none →
      password_reset_verify_code email code now db = (.error invalidCode, db))
    ∧ codeExpired ≠ invalidCode := by
  exact ⟨fun r hm hexp => verify_eq_of_expired hm hexp,
    fun hm => verify_eq_of_match_none hm, by decide⟩

def rC4w : PasswordResetCode := ⟨1, "w@x.y", "111111", 50, 1⟩

def dbC4w : Db := ⟨[], [rC4w]⟩

theorem C4_verify_expired_witness :
    password_reset_verify_code "w@x.y" "111111" 60 dbC4w =
      (.error codeExpired, dbC4w)
    ∧ password_reset_verify_code "w@x.y" "222222" 60 dbC4w =
      (.error invalidCode, dbC4w) :=
  ⟨(C4_verify_expired "w@x.y" "111111" 60 dbC4w).1 rC4w (by decide) (by decide),
   (C4_verify_expired "w@x.y" "222222" 60 dbC4w).2.1 (by decide)⟩

def uC1 : Account := ⟨"u1", "c1@b.c", bcrypt_hashpw "oldpassword" 7, none⟩

def dbC1 : Db := ⟨[uC1], []⟩

/-- C1 counterexample: with an existing account, a new password of length at
least 8, and an empty reset-code store, `password_reset_confirm` does not
succeed — `db.delete(record)` is reached with `record = None`, the endpoint
raises, and the request fails with an unhandled-exception 500 while the
stored state is unchanged. -/
theorem C1_counterexample :
    find_by_email "c1@b.c" dbC1.users ≠ none
    ∧ 8 ≤ ("newpassword1" : String).length
    ∧ dbC1.resetCodes = []
    ∧ password_reset_confirm "c1@b.c" "newpassword1" 9 dbC1 =
        (.error internalServerError, dbC1) := by
  refine ⟨by decide, by decide, by decide, by decide⟩

/-- C1 (amended): for every email resolving to an account and every new
password of length at least 8, `password_reset_confirm` succeeds and replaces
the stored password hash provided at least one `ResetCode` record exists for
the email; the latest such record is deleted purely as cleanup, and nothing
about its code string or expiry is checked — no prior verify-code call is
required.  (When no record exists the call raises instead of succeeding, per
the counterexample.) -/
theorem C1_confirm_ignores_code (email new_password : String) (salt : Nat)
    (db : Db) (u : Account) (r : PasswordResetCode)
    (hu : find_by_email email db.users = some u)
    (hlen : 8 ≤ new_password.length)
    (hr : latestFor email db.resetCodes = some r) :
    password_reset_confirm email new_password salt db =
      (.ok (), { db with
        users := db.users.map (fun v =>
          if v.user_id == u.user_id then
            { v with password := bcrypt_hashpw new_password salt }
          else v),
        resetCodes := db.resetCodes.filter
          (fun c => c.code_id != r.code_id) })
    ∧ bcrypt_checkpw new_password (bcrypt_hashpw new_password salt) = true := by
  have hnl : ¬ new_password.length < 8 := by omega
  constructor
  · simp [password_reset_confirm, hu, hnl, hr]
  · simp [bcrypt_checkpw, bcrypt_hashpw]

def rC1 : PasswordResetCode := ⟨1, "c1@b.c", "999999", 0, 1⟩

def dbC1w : Db := ⟨[uC1], [rC1]⟩

lemma le_laterOf (a b : PasswordResetCode) :
    a.created_at ≤ (laterOf a b).created_at
    ∧ b.created_at ≤ (laterOf a b).created_at := by
  unfold laterOf; split <;> omega

lemma foldl_laterOf_mem (rs : List PasswordResetCode) :
    ∀ a, rs.foldl laterOf a ∈ a :: rs := by
  induction rs with
  | nil => intro a; simp
  | cons r rs ih =>
    intro a
    simp only [List.foldl_cons]
    have hor : laterOf a r = a ∨ laterOf a r = r := by
      unfold laterOf; split <;> simp
    rcases List.mem_cons.mp (ih (laterOf a r)) with heq | hmem
    · rw [heq]
      rcases hor with h1 | h1 <;> rw [h1] <;> simp
    · exact List.mem_cons_of_mem a (List.mem_cons_of_mem r hmem)

lemma foldl_laterOf_le (rs : List PasswordResetCode) :
    ∀ a, ∀ x ∈ a :: rs, x.created_at ≤ (rs.foldl laterOf a).created_at := by
  induction rs with
  | nil =>
    intro a x hx
    rcases List.mem_singleton.mp hx with rfl
    simp
  | cons r rs ih =>
    intro a x hx
    simp only [List.foldl_cons]
    have hstep : (laterOf a r).created_at ≤
        (rs.foldl laterOf (laterOf a r)).created_at :=
      ih (laterOf a r) (laterOf a r) (List.mem_cons_self _ _)
    rcases List.mem_cons.mp hx with rfl | hx'
    · exact le_trans (le_laterOf x r).1 hstep
    · rcases List.mem_cons.mp hx' with rfl | hx''
      · exact le_trans (le_laterOf a x).2 hstep
      · exact ih (laterOf a r) x (List.mem_cons_of_mem _ hx'')

lemma latestRecord_some {l : List PasswordResetCode} {r : PasswordResetCode}
    (h : latestRecord l = some r) :
    r ∈ l ∧ ∀ x ∈ l, x.created_at ≤ r.created_at := by
  cases l with
  | nil => cases h
  | cons a rs =>
    simp only [latestRecord, Option.some.injEq] at h
    subst h
    exact ⟨foldl_laterOf_mem rs a, foldl_laterOf_le rs a⟩

lemma latestFor_some {email : String} {l : List PasswordResetCode}
    {r : PasswordResetCode} (h : latestFor email l = some r) :
    r ∈ l ∧ r.email = email
    ∧ ∀ x ∈ l, x.email = email → x.created_at ≤ r.created_at := by
  unfold latestFor at h
  obtain ⟨hm, hle⟩ := latestRecord_some h
  have hmem := List.mem_filter.mp hm
  refine ⟨hmem.1, by simpa using hmem.2, fun x hx hex => ?_⟩
  exact hle x (List.mem_filter.mpr ⟨hx, by simp [hex]⟩)

lemma length_filter_ne {l : List PasswordResetCode} {r : PasswordResetCode}
    (hnd : (l.map (fun c => c.code_id)).Nodup) (hr : r ∈ l) :
    l.length = (l.filter (fun c => c.code_id != r.code_id)).length + 1 := by
  induction l with
  | nil => cases hr
  | cons a l ih =>
    simp only [List.map_cons, List.nodup_cons] at hnd
    obtain ⟨ha, hnd'⟩ := hnd
    rcases List.mem_cons.mp hr with rfl | hr'
    · have hfl : l.filter (fun c => c.code_id != r.code_id) = l := by
        apply List.filter_eq_self.mpr
        intro c hc
        have hne : c.code_id ≠ r.code_id := by
          intro he
          exact ha (he ▸ List.mem_map_of_mem _ hc)
        simp [hne]
      simp [List.filter_cons, hfl]
    · have hne : a.code_id ≠ r.code_id := by
        intro he
        exact ha (he ▸ List.mem_map_of_mem _ hr')
      simp only [List.filter_cons, bne_iff_ne, ne_eq, hne, not_false_eq_true,
        if_true, List.length_cons]
      have := ih hnd' hr'
      omega

lemma confirm_eq_of_record {email new_password : String} {salt : Nat}
    {db : Db} {u : Account} {r : PasswordResetCode}
    (hu : find_by_email email db.users = some u)
    (hnl : ¬ new_password.length < 8)
    (hr : latestFor email db.resetCodes = some r) :
    password_reset_confirm email new_password salt db =
      (.ok (), { db with
        users := db.users.map (fun v =>
          if v.user_id == u.user_id then
            { v with password := bcrypt_hashpw new_password salt }
          else v),
        resetCodes := db.resetCodes.filter
          (fun c => c.code_id != r.code_id) }) := by
  simp [password_reset_confirm, hu, hnl, hr]

lemma confirm_eq_of_user_none {email new_password : String} {salt : Nat}
    {db : Db} (hu : find_by_email email db.users = none) :
    password_reset_confirm email new_password salt db =
      (.error userNotFound, db) := by
  simp [password_reset_confirm, hu]

lemma confirm_eq_of_short {email new_password : String} {salt : Nat}
    {db : Db} {u : Account} (hu : find_by_email email db.users = some u)
    (hlen : new_password.length < 8) :
    password_reset_confirm email new_password salt db =
      (.error weakPassword, db) := by
  simp [password_reset_confirm, hu, hlen]

lemma confirm_eq_of_no_record {email new_password : String} {salt : Nat}
    {db : Db} {u : Account} (hu : find_by_email email db.users = some u)
    (hnl : ¬ new_password.length < 8)
    (hr : latestFor email db.resetCodes = none) :
    password_reset_confirm email new_password salt db =
      (.error internalServerError, db) := by
  simp [password_reset_confirm, hu, hnl, hr]

/-- C10: a successful confirm deletes exactly one reset-code record — the
most recent one for the given email (ids being unique) — and every other
record, older ones for that email and all records for other emails alike,
remains in the store. -/
theorem C10_confirm_deletes_latest (email new_password : String) (salt : Nat)
    (db db' : Db)
    (hnd : (db.resetCodes.map (fun c => c.code_id)).Nodup)
    (hok : password_reset_confirm email new_password salt db = (.ok (), db')) :
    ∃ r, r ∈ db.resetCodes ∧ r.email = email
      ∧ (∀ s ∈ db.resetCodes, s.email = email → s.created_at ≤ r.created_at)
      ∧ db'.resetCodes = db.resetCodes.filter (fun c => c.code_id != r.code_id)
      ∧ (∀ c ∈ db.resetCodes, c.code_id ≠ r.code_id → c ∈ db'.resetCodes)
      ∧ (∀ c ∈ db'.resetCodes, c ∈ db.resetCodes)
      ∧ db.resetCodes.length = db'.resetCodes.length + 1 := by
  cases hu : find_by_email email db.users with
  | none =>
    rw [confirm_eq_of_user_none hu] at hok
    exact absurd hok (by simp)
  | some u =>
    by_cases hlen : new_password.length < 8
    · rw [confirm_eq_of_short hu hlen] at hok
      exact absurd hok (by simp)
    · cases hr : latestFor email db.resetCodes with
      | none =>
        rw [confirm_eq_of_no_record hu hlen hr] at hok
        exact absurd hok (by simp)
      | some r =>
        rw [confirm_eq_of_record hu hlen hr] at hok
        simp only [Prod.mk.injEq] at hok
        obtain ⟨hmem, hemail, hmax⟩ := latestFor_some hr
        have hcodes : db'.resetCodes =
            db.resetCodes.filter (fun c => c.code_id != r.code_id) := by
          rw [← hok.2]
        refine ⟨r, hmem, hemail, hmax, hcodes, ?_, ?_, ?_⟩
        · intro c hc hne
          rw [hcodes]
          exact List.mem_filter.mpr ⟨hc, by simp [hne]⟩
        · intro c hc
          rw [hcodes] at hc
          exact (List.mem_filter.mp hc).1
        · rw [hcodes]
          exact length_filter_ne hnd hmem

def uC10 : Account := ⟨"u1", "c10@b.c", bcrypt_hashpw "oldpassword" 7, none⟩

def rOldC10 : PasswordResetCode := ⟨1, "c10@b.c", "111111", 400, 1⟩

def rNewC10 : PasswordResetCode := ⟨2, "c10@b.c", "222222", 900, 2⟩

def rOtherC10 : PasswordResetCode := ⟨3, "other@b.c", "333333", 900, 3⟩

def dbC10 : Db := ⟨[uC10], [rOldC10, rNewC10, rOtherC10]⟩

def dbC10after : Db :=
  ⟨[⟨"u1", "c10@b.c", bcrypt_hashpw "newpassword1" 9, none⟩],
   [rOldC10, rOtherC10]⟩

theorem C10_confirm_deletes_latest_witness :
    ∃ r, r ∈ dbC10.resetCodes ∧ r.email = "c10@b.c"
      ∧ (∀ s ∈ dbC10.resetCodes, s.email = "c10@b.c" →
          s.created_at ≤ r.created_at)
      ∧ dbC10after.resetCodes =
          dbC10.resetCodes.filter (fun c => c.code_id != r.code_id)
      ∧ (∀ c ∈ dbC10.resetCodes, c.code_id ≠ r.code_id →
          c ∈ dbC10after.resetCodes)
      ∧ (∀ c ∈ dbC10after.resetCodes, c ∈ dbC10.resetCodes)
      ∧ dbC10.resetCodes.length = dbC10after.resetCodes.length + 1 :=
  C10_confirm_deletes_latest "c10@b.c" "newpassword1" 9 dbC10 dbC10after
    (by decide) (by decide)

theorem C1_confirm_ignores_code_witness :
    password_reset_confirm "c1@b.c" "newpassword1" 9 dbC1w =
      (.ok (), { dbC1w with
        users := dbC1w.users.map (fun v =>
          if v.user_id == uC1.user_id then
            { v with password := bcrypt_hashpw "newpassword1" 9 }
          else v),
        resetCodes := dbC1w.resetCodes.filter
          (fun c => c.code_id != rC1.code_id) })
    ∧ bcrypt_checkpw "newpassword1" (bcrypt_hashpw "newpassword1" 9) = true :=
  C1_confirm_ignores_code "c1@b.c" "newpassword1" 9 dbC1w uC1 rC1
    (by decide) (by decide) (by decide)

lemma toDigitsCore_head (f : Nat) :
    ∀ n ds, 1 ≤ n → n < f →
      ∃ d t, 1 ≤ d ∧ d < 10
        ∧ Nat.toDigitsCore 10 f n ds = Nat.digitChar d :: t := by
  induction f with
  | zero => intro n ds h1 h2; omega
  | succ f ih =>
    intro n ds h1 h2
    by_cases h : n / 10 = 0
    · have hlt : n < 10 := (Nat.div_eq_zero_iff (by norm_num)).mp h
      refine ⟨n % 10, ds, ?_, ?_, ?_⟩
      · rw [Nat.mod_eq_of_lt hlt]; exact h1
      · exact Nat.mod_lt n (by norm_num)
      · simp [Nat.toDigitsCore, h]
    · obtain ⟨d, t, hd1, hd2, heq⟩ := ih (n / 10)
        (Nat.digitChar (n % 10) :: ds) (Nat.one_le_iff_ne_zero.mpr h)
        (lt_of_lt_of_le (Nat.div_lt_self (by omega) (by norm_num))
          (Nat.lt_succ_iff.mp h2))
      refine ⟨d, t, hd1, hd2, ?_⟩
      rw [show Nat.toDigitsCore 10 (f + 1) n ds
          = Nat.toDigitsCore 10 f (n / 10) (Nat.digitChar (n % 10) :: ds) from
        by simp [Nat.toDigitsCore, h]]
      exact heq

/-- The first character of the decimal representation of a positive integer
is a nonzero digit: Python's `str` never produces leading zeros. -/
lemma repr_head (n : Nat) (h1 : 1 ≤ n) :
    ∃ d t, 1 ≤ d ∧ d < 10 ∧ (Nat.repr n).data = Nat.digitChar d :: t := by
  obtain ⟨d, t, hd1, hd2, heq⟩ :=
    toDigitsCore_head (n + 1) n [] h1 (Nat.lt_succ_self n)
  have hdata : (Nat.repr n).data = Nat.toDigitsCore 10 (n + 1) n [] := rfl
  exact ⟨d, t, hd1, hd2, by rw [hdata, heq]⟩

lemma digitChar_ne_zero_char {d : Nat} (h1 : 1 ≤ d) (h2 : d < 10) :
    Nat.digitChar d ≠ '0' := by
  interval_cases d <;> decide

/-- C2 counterexample: the claim says the generated code is drawn from the
full zero-padded range "000000"–"999999", but no draw of
`random.randint(100000, 999999)` can ever produce the string "000000" —
the draw is at least 100000 and `str` emits no leading zeros. -/
theorem C2_counterexample :
    ¬ ∃ n, randintDraw n ∧ pyStr n = "000000" := by
  rintro ⟨n, ⟨hlo, hhi⟩, hstr⟩
  obtain ⟨d, t, hd1, hd2, hdata⟩ := repr_head n (by omega)
  have hdd : (pyStr n).data = "000000".data := congrArg String.data hstr
  have h0 : "000000".data = ['0', '0', '0', '0', '0', '0'] := rfl
  rw [h0] at hdd
  have hrepr : (Nat.repr n).data = ['0', '0', '0', '0', '0', '0'] := hdd
  rw [hdata] at hrepr
  injection hrepr with hh _
  exact absurd hh (digitChar_ne_zero_char hd1 hd2)

/-- C2 (amended): a successful reset request persists a `ResetCode` whose
code is the plain decimal string of a draw uniform on 100000–999999 — a
6-digit string with nonzero leading digit, so the zero-padded strings
"000000"–"099999" are never produced — and whose expiry is issuance time
plus 5 minutes. -/
theorem C2_request_entry (email : String) (draw newCodeId now : Nat)
    (db : Db) (u : Account) (hdraw : randintDraw draw)
    (hu : find_by_email email db.users = some u) :
    password_reset_request email draw newCodeId now db =
      (.ok (), { db with resetCodes := db.resetCodes ++
        [⟨newCodeId, email, pyStr draw, now + 5 * 60, now⟩] })
    ∧ ∃ d t, 1 ≤ d ∧ d < 10 ∧ (pyStr draw).data = Nat.digitChar d :: t := by
  constructor
  · simp [password_reset_request, hu]
  · exact repr_head draw (le_trans (by norm_num) hdraw.1)

def uC2 : Account := ⟨"u1", "c2@b.c", bcrypt_hashpw "oldpassword" 7, none⟩

def dbC2 : Db := ⟨[uC2], []⟩

theorem C2_request_entry_witness :
    password_reset_request "c2@b.c" 123456 11 100 dbC2 =
      (.ok (), { dbC2 with resetCodes := dbC2.resetCodes ++
        [⟨11, "c2@b.c", pyStr 123456, 100 + 5 * 60, 100⟩] })
    ∧ ∃ d t, 1 ≤ d ∧ d < 10 ∧ (pyStr 123456).data = Nat.digitChar d :: t :=
  C2_request_entry "c2@b.c" 123456 11 100 dbC2 uC2 (by decide) (by decide)

end Auth

